import Mathlib

/-!
# Verification of pollster's wake-signal handshake and driver loop

Shallow embedding of `src/lib.rs` of the `pollster` crate: the
`SignalState` machine guarded by a mutex (`Signal::wait` / `Signal::notify`),
the raw-waker vtable (clone / wake / wake_by_ref / drop manipulating the
`Arc<Signal>` strong count), and the `block_on` polling loop.

Conventions of the embedding:
* `Signal.notify` is the lock-held body of `Signal::notify`; it returns the
  new state together with the number of `Condvar::notify_one` calls (0 or 1).
* `Signal.wait` models one complete call to `Signal::wait`.  Because the
  condition variable releases the lock while the caller is parked, other
  threads may run `notify()` in that window; the parameter `ext` is the
  number of `notify()` calls delivered between the moment the waiter parks
  and the moment it re-acquires the lock after being woken.  `ext = 0` means
  nobody ever notifies a parked waiter, i.e. the thread blocks forever.
* `blockOn` is the `loop { match fut.poll(..) ... }` of `block_on`, with a
  fuel bound on the number of iterations (the real loop has no bound; every
  terminating execution is captured by some fuel).  A future is an explicit
  state-transition function `σ → σ × Poll α × Nat`, the `Nat` being the
  number of waker invocations (each one a `Signal::notify`) performed during
  that poll.
* `World` models the heap-level bookkeeping of the vtable: the `Arc`'s
  strong count, whether the `Signal` allocation is still live, how many
  times it has been deallocated, the signal state and the running count of
  condvar wakes.
-/

namespace Pollster

/-- The `enum SignalState { Empty, Waiting, Notified }` of `src/lib.rs`. -/
inductive SignalState where
  | Empty
  | Waiting
  | Notified
deriving DecidableEq, Repr

/-- Lock-held body of `Signal::notify`: returns the successor state and the
number of `Condvar::notify_one` calls made (0 or 1).  `Notified ↦ Notified`
(no-op), `Empty ↦ Notified` (leave a mark), `Waiting ↦ Empty` plus one
condvar wake. -/
def Signal.notify : SignalState → SignalState × Nat
  | .Notified => (.Notified, 0)
  | .Empty => (.Notified, 0)
  | .Waiting => (.Empty, 1)

/-- `n` consecutive calls to `Signal::notify` with no intervening `wait`:
final state and total number of condvar wakes. -/
def Signal.notifyIter : SignalState → Nat → SignalState × Nat
  | g, 0 => (g, 0)
  | g, n + 1 =>
    let p := Signal.notify g
    let q := Signal.notifyIter p.1 n
    (q.1, p.2 + q.2)

/-- Outcome of one call to `Signal::wait`: it returns leaving the state `g`
(`parked` records whether it ever blocked on the condvar), or it blocks
forever (nobody notifies it), or it hits the
`unreachable!("Multiple threads waiting ...")` panic. -/
inductive WaitRes where
  | ret (g : SignalState) (parked : Bool)
  | blockedForever
  | panicked
deriving DecidableEq, Repr

/-- `Signal::wait`, entered with the lock held on state `g`.  `ext` is the
number of `notify()` calls delivered while the caller is parked on the
condvar (before it re-acquires the lock on wakeup):
* `Notified`: reset to `Empty`, return immediately without parking;
* `Waiting`: the `unreachable!` panic (two waiters on one signal);
* `Empty`: set `Waiting` and park.  With `ext = 0` nobody ever wakes us.
  Otherwise the `ext` notifies run (the first moves `Waiting ↦ Empty` and
  signals the condvar, later ones move `Empty ↦ Notified`); the woken
  waiter re-checks the state, finds it no longer `Waiting`, exits the
  spurious-wakeup loop and returns leaving that state in place. -/
def Signal.wait (g : SignalState) (ext : Nat) : WaitRes :=
  match g with
  | .Notified => .ret .Empty false
  | .Waiting => .panicked
  | .Empty =>
    if ext = 0 then .blockedForever
    else .ret (Signal.notifyIter .Waiting ext).1 true

/-- `std::task::Poll`. -/
inductive Poll (α : Type) where
  | Pending
  | Ready (a : α)
deriving DecidableEq, Repr

/-- Result of running the `block_on` polling loop under a fuel bound:
completion value together with the number of polls and of `Signal::wait`
calls, or the loop blocked forever in `wait`, or fuel ran out, or `wait`
panicked. -/
inductive RunResult (α : Type) where
  | ok (val : α) (polls : Nat) (waits : Nat)
  | blockedForever
  | fuelOut
  | panicked
deriving DecidableEq, Repr

/-- The polling loop of `block_on`:
`loop { match fut.poll(cx) { Pending => signal.wait(), Ready(item) => break item } }`.
`poll` is the future (state, result, waker invocations during the poll —
wakes reach the signal before the driver can act on the result); `ext i`
is the number of notifies delivered to the `i`-th parked wait; `polls` and
`waits` are accumulators. -/
def blockOn {σ α : Type} (poll : σ → σ × Poll α × Nat) (ext : Nat → Nat) :
    Nat → σ → SignalState → Nat → Nat → RunResult α
  | 0, _, _, _, _ => .fuelOut
  | fuel + 1, s, g, polls, waits =>
    match poll s with
    | (_, .Ready a, _) => .ok a (polls + 1) waits
    | (s1, .Pending, k) =>
      match Signal.wait (Signal.notifyIter g k).1 (ext waits) with
      | .ret g2 _ => blockOn poll ext fuel s1 g2 (polls + 1) (waits + 1)
      | .blockedForever => .blockedForever
      | .panicked => .panicked

/-- A future that is immediately ready with value `42`
(`async_std::future::ready(42)` from the crate's own test). -/
def readyPoll42 : Unit → Unit × Poll Nat × Nat := fun _ => ((), .Ready 42, 0)

/-- Heap-level bookkeeping for the raw-waker vtable: strong count of the
`Arc<Signal>`, liveness of the allocation, number of deallocations that have
happened, and the signal itself (state plus total condvar wakes). -/
structure World where
  rc : Nat
  alive : Bool
  deallocs : Nat
  sig : SignalState
  wakes : Nat
deriving DecidableEq, Repr

/-- Run `Signal::notify` against the signal held in a `World`. -/
def notifyW (w : World) : World :=
  { w with sig := (Signal.notify w.sig).1, wakes := w.wakes + (Signal.notify w.sig).2 }

/-- Dropping one `Arc<Signal>` share: decrement the strong count; when the
last share goes (count 1 → 0) the `Signal` is deallocated. -/
def releaseShare (w : World) : World :=
  if w.rc = 1 then { w with rc := 0, alive := false, deallocs := w.deallocs + 1 }
  else { w with rc := w.rc - 1 }

/-- Vtable `Clone`: `from_raw` (take ownership, count unchanged), `clone`
the `Arc` (count + 1), `into_raw` the clone, `forget` the original — net
effect: one new share, signal untouched. -/
def vtableClone (w : World) : World := { w with rc := w.rc + 1 }

/-- Vtable `Wake` (consuming): `from_raw`, `arc.notify()`, then `drop(arc)`
releasing the caller's share. -/
def vtableWake (w : World) : World := releaseShare (notifyW w)

/-- Vtable `WakeByRef` (non-consuming): dereference the raw pointer and call
`notify()`; the strong count is never touched. -/
def vtableWakeByRef (w : World) : World := notifyW w

/-- Vtable `Drop`: `drop(Arc::from_raw(..))` — release one share. -/
def vtableDrop (w : World) : World := releaseShare w

/-- The vtable `Wake` entry when `notify()` unwinds.  `Signal::notify` can
only panic at `self.state.lock().unwrap()` (poisoned mutex), i.e. before
mutating any state; the local binding `arc` is an `Arc` whose destructor
runs during the unwind, so the caller's share is still released exactly
once and the signal state is unchanged. -/
def vtableWakeUnwind (w : World) : World := releaseShare w

/-- The two share-consuming handle operations: `drop` and (consuming)
`wake`. -/
inductive HandleOp where
  | wake
  | drop
deriving DecidableEq, Repr

/-- Apply one consuming handle operation. -/
def applyRelease : HandleOp → World → World
  | .wake, w => vtableWake w
  | .drop, w => vtableDrop w

/-- Apply a sequence of consuming handle operations left to right. -/
def runRelease : World → List HandleOp → World
  | w, [] => w
  | w, op :: rest => runRelease (applyRelease op w) rest

/-- The world right after `block_on` creates its signal and turns one clone
into the raw waker: one handle, live allocation, fresh `Empty` signal. -/
def freshWorld : World :=
  { rc := 1, alive := true, deallocs := 0, sig := .Empty, wakes := 0 }

/-- `k` successive vtable clones. -/
def cloneN : Nat → World → World
  | 0, w => w
  | k + 1, w => cloneN k (vtableClone w)

/-! ## Helper lemmas -/

theorem notify_ne_waiting (s : SignalState) : (Signal.notify s).1 ≠ SignalState.Waiting := by
  cases s <;> simp [Signal.notify]

theorem notifyIter_succ (g : SignalState) (n : Nat) :
    Signal.notifyIter g (n + 1) =
      ((Signal.notifyIter (Signal.notify g).1 n).1,
        (Signal.notify g).2 + (Signal.notifyIter (Signal.notify g).1 n).2) := by
  simp [Signal.notifyIter]

theorem notifyIter_ne_waiting (n : Nat) (s : SignalState) (hs : s ≠ SignalState.Waiting) :
    (Signal.notifyIter s n).1 ≠ SignalState.Waiting := by
  induction n generalizing s with
  | zero => simpa [Signal.notifyIter] using hs
  | succ n ih =>
    rw [notifyIter_succ]
    exact ih (Signal.notify s).1 (notify_ne_waiting s)

theorem notifyIter_waiting_pos (n : Nat) (hn : 1 ≤ n) :
    (Signal.notifyIter SignalState.Waiting n).1 ≠ SignalState.Waiting := by
  cases n with
  | zero => omega
  | succ m =>
    rw [notifyIter_succ]
    exact notifyIter_ne_waiting m (Signal.notify SignalState.Waiting).1
      (notify_ne_waiting SignalState.Waiting)

theorem notifyIter_notified (n : Nat) :
    Signal.notifyIter SignalState.Notified n = (SignalState.Notified, 0) := by
  induction n with
  | zero => rfl
  | succ m ih => rw [notifyIter_succ]; simpa [Signal.notify] using ih

theorem notifyIter_waiting_two (m : Nat) :
    (Signal.notifyIter SignalState.Waiting (m + 2)).1 = SignalState.Notified := by
  rw [notifyIter_succ, notifyIter_succ]
  simp [Signal.notify, notifyIter_notified]

theorem wait_ret_ne_waiting (g : SignalState) (e : Nat) (r : SignalState) (p : Bool)
    (h : Signal.wait g e = WaitRes.ret r p) : r ≠ SignalState.Waiting := by
  cases g with
  | Notified =>
    simp [Signal.wait] at h
    simp [← h.1]
  | Waiting => simp [Signal.wait] at h
  | Empty =>
    by_cases he : e = 0
    · simp [Signal.wait, he] at h
    · simp [Signal.wait, he] at h
      rw [← h.1]
      exact notifyIter_waiting_pos e (by omega)

theorem wait_not_panicked_of_ne_waiting (g : SignalState) (e : Nat)
    (hg : g ≠ SignalState.Waiting) : Signal.wait g e ≠ WaitRes.panicked := by
  cases g with
  | Notified => simp [Signal.wait]
  | Waiting => exact absurd rfl hg
  | Empty =>
    by_cases he : e = 0 <;> simp [Signal.wait, he]

theorem blockOn_no_panic {σ α : Type} (poll : σ → σ × Poll α × Nat) (ext : Nat → Nat)
    (fuel : Nat) (s : σ) (g : SignalState) (polls waits : Nat)
    (hg : g ≠ SignalState.Waiting) :
    blockOn poll ext fuel s g polls waits ≠ RunResult.panicked := by
  induction fuel generalizing s g polls waits with
  | zero => simp [blockOn]
  | succ fuel ih =>
    rcases hp : poll s with ⟨s1, r, k⟩
    cases r with
    | Ready a => simp [blockOn, hp]
    | Pending =>
      have hg1 : (Signal.notifyIter g k).1 ≠ SignalState.Waiting :=
        notifyIter_ne_waiting k g hg
      rcases hw : Signal.wait (Signal.notifyIter g k).1 (ext waits) with ⟨g2, p⟩ | _ | _
      · have hg2 : g2 ≠ SignalState.Waiting :=
          wait_ret_ne_waiting (Signal.notifyIter g k).1 (ext waits) g2 p hw
        simpa [blockOn, hp, hw] using ih s1 g2 (polls + 1) (waits + 1) hg2
      · simp [blockOn, hp, hw]
      · exact absurd hw (wait_not_panicked_of_ne_waiting (Signal.notifyIter g k).1 (ext waits) hg1)

/-! ## Claim theorems -/

/-- C1: if a notification is pending (the signal state is `Notified`) when
`wait()` is invoked, `wait()` resets the state to `Empty` and returns
immediately without ever parking on the condvar; consequently any
`notify()` delivered before `wait()` starts (from any state with no waiter
present) is observed by that `wait()`, never lost. -/
theorem wait_observes_pending_notification (g : SignalState) (ext : Nat)
    (h : g = SignalState.Notified) :
    Signal.wait g ext = WaitRes.ret SignalState.Empty false ∧
    ∀ s e, s ≠ SignalState.Waiting →
      Signal.wait (Signal.notify s).1 e = WaitRes.ret SignalState.Empty false := by
  subst h
  refine ⟨rfl, fun s e hs => ?_⟩
  cases s with
  | Notified => rfl
  | Waiting => exact absurd rfl hs
  | Empty => rfl

/-- Witness for C1 at the concrete state `Notified`. -/
theorem wait_observes_pending_notification_witness :
    Signal.wait SignalState.Notified 0 = WaitRes.ret SignalState.Empty false :=
  (wait_observes_pending_notification SignalState.Notified 0 rfl).1

/-- C2: `notify()` implements exactly the transition function of the spec:
`Notified` is a fixed point with no condvar wake, `Empty` goes to
`Notified` with no wake, and `Waiting` goes to `Empty` waking exactly one
waiter via the condition variable. -/
theorem notify_transition_table :
    Signal.notify SignalState.Notified = (SignalState.Notified, 0) ∧
    Signal.notify SignalState.Empty = (SignalState.Notified, 0) ∧
    Signal.notify SignalState.Waiting = (SignalState.Empty, 1) :=
  ⟨rfl, rfl, rfl⟩

/-- C3: with no waiter present (state not `Waiting`, i.e. no `wait()` call
pending or in progress), `n ≥ 1` consecutive `notify()` calls produce
exactly the same signal state and the same total number of condvar wakes
as a single `notify()`, and a subsequent single `wait()` behaves
identically in the two scenarios. -/
theorem notify_idempotent (s : SignalState) (n : Nat)
    (hs : s ≠ SignalState.Waiting) (hn : 1 ≤ n) :
    Signal.notifyIter s n = Signal.notifyIter s 1 ∧
    ∀ e, Signal.wait (Signal.notifyIter s n).1 e =
      Signal.wait (Signal.notifyIter s 1).1 e := by
  have key : Signal.notifyIter s n = Signal.notifyIter s 1 := by
    cases n with
    | zero => omega
    | succ m =>
      cases s with
      | Waiting => exact absurd rfl hs
      | Notified => rw [notifyIter_notified, notifyIter_notified]
      | Empty =>
        rw [notifyIter_succ, notifyIter_succ]
        simp [Signal.notify, notifyIter_notified, Signal.notifyIter]
  exact ⟨key, fun e => by rw [key]⟩

/-- Witness for C3: three notifies from `Empty` equal one notify. -/
theorem notify_idempotent_witness :
    Signal.notifyIter SignalState.Empty 3 = Signal.notifyIter SignalState.Empty 1 :=
  (notify_idempotent SignalState.Empty 3 (by decide) (by decide)).1

/-- C4: whenever the driver loop completes with value `a`, that value is
exactly a `Ready` completion value produced by some invocation of the
future's `poll` — `block_on` forwards the completion value without
interpreting, modifying or swallowing it (the statement is polymorphic in
the completion type, so it covers error-encoding values as well). -/
theorem blockOn_forwards_ready_value {σ α : Type} (poll : σ → σ × Poll α × Nat)
    (ext : Nat → Nat) (fuel : Nat) (s : σ) (g : SignalState) (polls waits : Nat)
    (a : α) (p q : Nat)
    (h : blockOn poll ext fuel s g polls waits = RunResult.ok a p q) :
    ∃ s1 s2 k, poll s1 = (s2, Poll.Ready a, k) := by
  induction fuel generalizing s g polls waits with
  | zero => simp [blockOn] at h
  | succ fuel ih =>
    rcases hp : poll s with ⟨s1, r, k⟩
    cases r with
    | Ready b =>
      have hb : b = a := by
        have := h
        simp [blockOn, hp] at this
        exact this.1
      exact ⟨s, s1, k, by rw [hp, hb]⟩
    | Pending =>
      rcases hw : Signal.wait (Signal.notifyIter g k).1 (ext waits) with ⟨g2, pk⟩ | _ | _
      · exact ih s1 g2 (polls + 1) (waits + 1) (by simpa [blockOn, hp, hw] using h)
      · simp [blockOn, hp, hw] at h
      · simp [blockOn, hp, hw] at h

/-- Witness for C4: drives the immediately-ready future and recovers its
`Ready 42` poll. -/
theorem blockOn_forwards_ready_value_witness :
    ∃ s1 s2 k, readyPoll42 s1 = (s2, Poll.Ready 42, k) :=
  blockOn_forwards_ready_value readyPoll42 (fun _ => 0) 1 () SignalState.Empty 0 0
    42 1 0 (by rfl)

/-- C5: a future whose first poll returns `Ready a` makes `block_on` return
`a` after exactly one poll and zero calls to `Signal::wait`, whatever the
signal state, the notify schedule and the remaining fuel. -/
theorem blockOn_ready_first_poll {σ α : Type} (poll : σ → σ × Poll α × Nat)
    (ext : Nat → Nat) (fuel : Nat) (s : σ) (g : SignalState) (s1 : σ) (a : α) (k : Nat)
    (h : poll s = (s1, Poll.Ready a, k)) :
    blockOn poll ext (fuel + 1) s g 0 0 = RunResult.ok a 1 0 := by
  simp [blockOn, h]

/-- Witness for C5: the immediately-ready future yields `42` with one poll
and zero waits. -/
theorem blockOn_ready_first_poll_witness :
    blockOn readyPoll42 (fun _ => 0) 1 () SignalState.Empty 0 0 = RunResult.ok 42 1 0 :=
  blockOn_ready_first_poll readyPoll42 (fun _ => 0) 0 () SignalState.Empty () 42 0 rfl

/-! ## Reference-count lemmas for the vtable world -/

theorem applyRelease_rc (op : HandleOp) (w : World) : (applyRelease op w).rc = w.rc - 1 := by
  cases op <;>
    simp only [applyRelease, vtableWake, vtableDrop, releaseShare, notifyW] <;>
    split_ifs <;> simp <;> omega

theorem applyRelease_keep (op : HandleOp) (w : World) (h : w.rc ≠ 1) :
    (applyRelease op w).alive = w.alive ∧ (applyRelease op w).deallocs = w.deallocs := by
  cases op <;>
    simp only [applyRelease, vtableWake, vtableDrop, releaseShare, notifyW] <;>
    split_ifs <;> simp_all

theorem applyRelease_last (op : HandleOp) (w : World) (h : w.rc = 1) :
    (applyRelease op w).rc = 0 ∧ (applyRelease op w).alive = false ∧
    (applyRelease op w).deallocs = w.deallocs + 1 := by
  cases op <;>
    simp only [applyRelease, vtableWake, vtableDrop, releaseShare, notifyW] <;>
    split_ifs <;> simp_all

theorem runRelease_under (ops : List HandleOp) (w : World) (h : ops.length < w.rc) :
    (runRelease w ops).rc = w.rc - ops.length ∧
    (runRelease w ops).alive = w.alive ∧
    (runRelease w ops).deallocs = w.deallocs := by
  induction ops generalizing w with
  | nil => simp [runRelease]
  | cons op rest ih =>
    have hlen : rest.length + 1 < w.rc := by simpa using h
    have h1 : w.rc ≠ 1 := by omega
    have hrc := applyRelease_rc op w
    have hk := applyRelease_keep op w h1
    have hlt : rest.length < (applyRelease op w).rc := by omega
    obtain ⟨a, b, c⟩ := ih (applyRelease op w) hlt
    refine ⟨?_, ?_, ?_⟩
    · show (runRelease (applyRelease op w) rest).rc = w.rc - (op :: rest).length
      rw [a, hrc]
      simp
      omega
    · show (runRelease (applyRelease op w) rest).alive = w.alive
      rw [b, hk.1]
    · show (runRelease (applyRelease op w) rest).deallocs = w.deallocs
      rw [c, hk.2]

theorem runRelease_exact (ops : List HandleOp) (w : World) (h : ops.length = w.rc)
    (h1 : 1 ≤ w.rc) :
    (runRelease w ops).rc = 0 ∧ (runRelease w ops).alive = false ∧
    (runRelease w ops).deallocs = w.deallocs + 1 := by
  induction ops generalizing w with
  | nil => simp at h; omega
  | cons op rest ih =>
    by_cases hone : w.rc = 1
    · have hz : rest.length = 0 := by simp at h; omega
      have hrest : rest = [] := List.eq_nil_of_length_eq_zero hz
      subst hrest
      obtain ⟨a, b, c⟩ := applyRelease_last op w hone
      exact ⟨by simpa [runRelease] using a, by simpa [runRelease] using b,
        by simpa [runRelease] using c⟩
    · have hrc := applyRelease_rc op w
      have hk := applyRelease_keep op w hone
      have hlen : rest.length = (applyRelease op w).rc := by simp at h; omega
      have hge : 1 ≤ (applyRelease op w).rc := by omega
      obtain ⟨a, b, c⟩ := ih (applyRelease op w) hlen hge
      refine ⟨by simpa [runRelease] using a, by simpa [runRelease] using b, ?_⟩
      show (runRelease (applyRelease op w) rest).deallocs = w.deallocs + 1
      rw [c, hk.2]

theorem cloneN_fields (k : Nat) (w : World) :
    (cloneN k w).rc = w.rc + k ∧ (cloneN k w).alive = w.alive ∧
    (cloneN k w).deallocs = w.deallocs := by
  induction k generalizing w with
  | zero => simp [cloneN]
  | succ m ih =>
    obtain ⟨a, b, c⟩ := ih (vtableClone w)
    refine ⟨?_, ?_, ?_⟩
    · show (cloneN m (vtableClone w)).rc = w.rc + (m + 1)
      rw [a]
      simp [vtableClone]
      omega
    · show (cloneN m (vtableClone w)).alive = w.alive
      rw [b]
      simp [vtableClone]
    · show (cloneN m (vtableClone w)).deallocs = w.deallocs
      rw [c]
      simp [vtableClone]

/-- C6: starting from the single handle `block_on` creates, cloning it `K`
times and then consuming all `K + 1` shares through any sequence of `drop`
and consuming-`wake` vtable operations, in any order, deallocates the
`Signal` exactly once (final count 0, allocation gone, one deallocation),
and after any proper initial segment of those releases the `Signal` is
still live with no deallocation — it is never freed while a share
remains. -/
theorem waker_refcount_correct (K : Nat) (ops : List HandleOp)
    (h : ops.length = K + 1) :
    ((runRelease (cloneN K freshWorld) ops).deallocs = 1 ∧
     (runRelease (cloneN K freshWorld) ops).alive = false ∧
     (runRelease (cloneN K freshWorld) ops).rc = 0) ∧
    ∀ i, i ≤ K →
      (runRelease (cloneN K freshWorld) (List.take i ops)).deallocs = 0 ∧
      (runRelease (cloneN K freshWorld) (List.take i ops)).alive = true := by
  obtain ⟨hrc, halive, hdeal⟩ := cloneN_fields K freshWorld
  have hrc1 : (cloneN K freshWorld).rc = K + 1 := by rw [hrc]; simp [freshWorld]; omega
  have halive1 : (cloneN K freshWorld).alive = true := by rw [halive]; rfl
  have hdeal0 : (cloneN K freshWorld).deallocs = 0 := by rw [hdeal]; rfl
  constructor
  · obtain ⟨a, b, c⟩ := runRelease_exact ops (cloneN K freshWorld) (by omega) (by omega)
    exact ⟨by rw [c, hdeal0], b, a⟩
  · intro i hi
    have hlen : (List.take i ops).length = i := by
      rw [List.length_take]
      omega
    obtain ⟨a, b, c⟩ := runRelease_under (List.take i ops) (cloneN K freshWorld) (by omega)
    exact ⟨by rw [c, hdeal0], by rw [b, halive1]⟩

/-- Witness for C6: two clones, then wake-drop-drop releases all three
shares with exactly one deallocation. -/
theorem waker_refcount_correct_witness :
    (runRelease (cloneN 2 freshWorld) [HandleOp.wake, HandleOp.drop, HandleOp.drop]).deallocs = 1 ∧
    (runRelease (cloneN 2 freshWorld) [HandleOp.wake, HandleOp.drop, HandleOp.drop]).alive = false ∧
    (runRelease (cloneN 2 freshWorld) [HandleOp.wake, HandleOp.drop, HandleOp.drop]).rc = 0 :=
  (waker_refcount_correct 2 [HandleOp.wake, HandleOp.drop, HandleOp.drop] rfl).1

/-- C7: `wait()` on a signal whose state is already `Waiting` hits the
`unreachable!` panic, whatever notifications later arrive; and in the
driver's own single-waiter usage (starting from the fresh `Empty` signal)
that branch can never be reached — no execution of the `block_on` loop
panics, for any future, notify schedule, fuel and accumulators. -/
theorem double_wait_panics_and_is_unreachable :
    (∀ e, Signal.wait SignalState.Waiting e = WaitRes.panicked) ∧
    ∀ (σ α : Type) (poll : σ → σ × Poll α × Nat) (ext : Nat → Nat) (fuel : Nat)
      (s : σ) (polls waits : Nat),
      blockOn poll ext fuel s SignalState.Empty polls waits ≠ RunResult.panicked := by
  refine ⟨fun e => rfl, fun σ α poll ext fuel s polls waits => ?_⟩
  exact blockOn_no_panic poll ext fuel s SignalState.Empty polls waits (by simp)

/-- Witness for C7 at concrete inputs. -/
theorem double_wait_panics_and_is_unreachable_witness :
    Signal.wait SignalState.Waiting 0 = WaitRes.panicked ∧
    blockOn readyPoll42 (fun _ => 0) 1 () SignalState.Empty 0 0 ≠ RunResult.panicked :=
  ⟨double_wait_panics_and_is_unreachable.1 0,
    double_wait_panics_and_is_unreachable.2 Unit Nat readyPoll42 (fun _ => 0) 1 () 0 0⟩

/-- C8: the consuming `wake` vtable entry notifies the signal and then
releases exactly the caller's own share: it equals `wake_by_ref` followed
by `drop`, and equals clone-then-notify-via-the-clone-then-drop-both; the
count drops by exactly one; and even when `notify()` unwinds (which can
only happen at lock acquisition, before any state change) the local `Arc`
is still dropped, so the share is released exactly once — deallocating
only if it was the last share — with no leak and no double release. -/
theorem wake_notify_then_release (w : World) (h : 1 ≤ w.rc) :
    vtableWake w = vtableDrop (vtableWakeByRef w) ∧
    vtableWake w = vtableDrop (vtableDrop (vtableWakeByRef (vtableClone w))) ∧
    (vtableWake w).rc + 1 = w.rc ∧
    (vtableWake w).sig = (Signal.notify w.sig).1 ∧
    (vtableWakeUnwind w).rc + 1 = w.rc ∧
    (vtableWakeUnwind w).deallocs = (if w.rc = 1 then w.deallocs + 1 else w.deallocs) ∧
    (vtableWakeUnwind w).sig = w.sig := by
  rcases w with ⟨rc, alive, deallocs, sig, wakes⟩
  simp only [vtableWake, vtableDrop, vtableWakeByRef, vtableClone, vtableWakeUnwind,
    notifyW, releaseShare] at h ⊢
  by_cases hone : rc = 1
  · simp_all
  · have hz : rc ≠ 0 := by omega
    simp_all

/-- Witness for C8: the release-exactly-one-share equation at the fresh
single-handle world. -/
theorem wake_notify_then_release_witness :
    (vtableWake freshWorld).rc + 1 = freshWorld.rc :=
  (wake_notify_then_release freshWorld (by decide)).2.2.1

/-- C9: the non-consuming `wake_by_ref` vtable entry performs exactly a
`notify()` on the signal: the share count, liveness and deallocation count
are untouched (the caller keeps its handle), and only the signal state and
condvar-wake count change, exactly as one `Signal::notify` dictates. -/
theorem wakeByRef_preserves_ownership (w : World) :
    (vtableWakeByRef w).rc = w.rc ∧ (vtableWakeByRef w).alive = w.alive ∧
    (vtableWakeByRef w).deallocs = w.deallocs ∧
    (vtableWakeByRef w).sig = (Signal.notify w.sig).1 ∧
    (vtableWakeByRef w).wakes = w.wakes + (Signal.notify w.sig).2 := by
  simp [vtableWakeByRef, notifyW]

/-- C10 counterexample: a `wait()` that parks on an `Empty` signal and has
two `notify()` calls delivered before it re-acquires the lock returns
leaving the state `Notified`, not `Empty` — the first notify moves
`Waiting ↦ Empty` and wakes the condvar, the second moves
`Empty ↦ Notified`, and the woken waiter merely observes "not `Waiting`"
and returns. -/
theorem wait_can_return_leaving_notified :
    Signal.wait SignalState.Empty 2 = WaitRes.ret SignalState.Notified true ∧
    SignalState.Notified ≠ SignalState.Empty := by
  constructor
  · decide
  · decide

/-- C10 (amended): every return of `wait()` leaves the state non-`Waiting`;
it leaves the state `Empty` whenever at most one notification is delivered
while the waiter is parked (in particular on the immediate `Notified`
path and in every sequential use), and a residual `Notified` state occurs
only when two or more notifies raced in while the waiter was parked. -/
theorem wait_return_state (g : SignalState) (e : Nat) (r : SignalState) (p : Bool)
    (h : Signal.wait g e = WaitRes.ret r p) :
    r ≠ SignalState.Waiting ∧ (e ≤ 1 → r = SignalState.Empty) ∧
    (r = SignalState.Notified → 2 ≤ e) := by
  refine ⟨wait_ret_ne_waiting g e r p h, ?_, ?_⟩
  · intro he
    cases g with
    | Notified =>
      simp [Signal.wait] at h
      simp [← h.1]
    | Waiting => simp [Signal.wait] at h
    | Empty =>
      match e with
      | 0 => simp [Signal.wait] at h
      | 1 =>
        simp [Signal.wait, Signal.notifyIter, Signal.notify] at h
        simp [← h.1]
      | m + 2 => omega
  · intro hr
    cases g with
    | Notified =>
      simp [Signal.wait] at h
      rw [← h.1] at hr
      simp at hr
    | Waiting => simp [Signal.wait] at h
    | Empty =>
      match e with
      | 0 => simp [Signal.wait] at h
      | 1 =>
        simp [Signal.wait, Signal.notifyIter, Signal.notify] at h
        rw [← h.1] at hr
        simp at hr
      | m + 2 => omega

/-- Witness for C10's amended theorem: a wait parked with exactly one
delivered notify returns leaving `Empty`. -/
theorem wait_return_state_witness :
    SignalState.Empty ≠ SignalState.Waiting ∧
    ((1 : Nat) ≤ 1 → SignalState.Empty = SignalState.Empty) ∧
    (SignalState.Empty = SignalState.Notified → 2 ≤ (1 : Nat)) :=
  wait_return_state SignalState.Empty 1 SignalState.Empty true (by decide)

end Pollster
